import Mathlib

/-!
Shallow embedding of the cog repository (packages `docker` and `serving`):
`pkg/docker/local_builder.go` (build-log scanning, tag, push) and the
`serving` package (Example construction, multipart encoding, readiness
polling, inference response decoding).  Definitions are translated from
the Go source; models of Go standard-library functions used by the source
are named with a `go` prefix and documented with the stdlib behaviour they
capture.
-/

/-- Model of Go `unicode.IsSpace` restricted to the ASCII whitespace
characters (space, tab, newline, vertical tab, form feed, carriage
return); non-ASCII Unicode space characters are not modelled. -/
def goIsSpace (c : Char) : Bool :=
  c = ' ' || c = '\t' || c = '\n' || c = (Char.ofNat 11) || c = (Char.ofNat 12) || c = '\r'

/-- Model of Go `strings.TrimSpace`: drop leading and trailing whitespace. -/
def goTrimSpace (s : String) : String :=
  ⟨((s.data.dropWhile goIsSpace).reverse.dropWhile goIsSpace).reverse⟩

/-- Helper shared by the models of `strings.Contains` and
`strings.SplitN(s, sep, 2)`: scan for the first occurrence of `sep` and
return the remainder after it, or `none` when `sep` does not occur. -/
def splitAfterFirst (sep : List Char) : List Char → Option (List Char)
  | [] => if sep.isEmpty then some [] else none
  | c :: cs =>
    if sep.isPrefixOf (c :: cs) then some ((c :: cs).drop sep.length)
    else splitAfterFirst sep cs

/-- Model of Go `strings.Contains` on char lists: `sub` occurs in `l`. -/
def listContainsSub (sub : List Char) : List Char → Bool
  | [] => sub.isEmpty
  | c :: cs => sub.isPrefixOf (c :: cs) || listContainsSub sub cs

/-- Model of Go `strings.Contains s sub`. -/
def strContainsSub (s sub : String) : Bool :=
  listContainsSub sub.data s.data

/-- Model of Go `strings.HasPrefix(s, p)`, computed on the char lists so
that it reduces in the kernel. -/
def strStartsWith (s p : String) : Bool :=
  p.data.isPrefixOf s.data

/-- Model of Go `filepath.Base` (unix): empty path gives ".", trailing
slashes are stripped, an all-slash path gives "/", otherwise the last
path element is returned. -/
def goBase (path : String) : String :=
  if path = "" then "."
  else
    let cs := path.data.reverse.dropWhile (· = '/')
    if cs = [] then "/"
    else ⟨(cs.takeWhile (· ≠ '/')).reverse⟩

/-- Stack-based component processing of Go `filepath.Clean` (unix): skip
empty and "." components; ".." pops the previous component unless it is
itself ".." (unrooted) or the stack is empty (push ".." when unrooted,
drop when rooted). -/
def cleanParts (rooted : Bool) : List String → List String → List String
  | [], acc => acc.reverse
  | p :: rest, acc =>
    if p = "" || p = "." then cleanParts rooted rest acc
    else if p = ".." then
      match acc with
      | a :: ac =>
        if a = ".." then cleanParts rooted rest (".." :: a :: ac)
        else cleanParts rooted rest ac
      | [] =>
        if rooted then cleanParts rooted rest []
        else cleanParts rooted rest [".."]
    else cleanParts rooted rest (p :: acc)

/-- Model of Go `filepath.Clean` (unix separator). -/
def goClean (path : String) : String :=
  if path = "" then "."
  else
    let rooted := strStartsWith path "/"
    let comps := cleanParts rooted (path.splitOn "/") []
    if rooted then "/" ++ String.intercalate "/" comps
    else if comps = [] then "."
    else String.intercalate "/" comps

/-- Model of Go `filepath.Join(a, b)`: empty elements are skipped and the
result is cleaned; joining two empty strings gives the empty string. -/
def goJoin (a b : String) : String :=
  if a = "" && b = "" then ""
  else if a = "" then goClean b
  else if b = "" then goClean a
  else goClean (a ++ "/" ++ b)

/-- Numeric value of a list of decimal digit characters. -/
def digitsVal (ds : List Char) : ℕ :=
  ds.foldl (fun a c => 10 * a + (c.toNat - 48)) 0

/-- Exponent suffix of Go decimal float syntax: either nothing, or
`e`/`E`, an optional sign and at least one digit, consuming the whole
remainder.  Returns the signed exponent. -/
def parseExpSuffix (cs : List Char) : Option ℤ :=
  match cs with
  | [] => some 0
  | e :: rest =>
    if e = 'e' || e = 'E' then
      let (sgn, rest2) : ℤ × List Char :=
        match rest with
        | '+' :: r => (1, r)
        | '-' :: r => (-1, r)
        | r => (1, r)
      let ds := rest2.takeWhile Char.isDigit
      if ds.isEmpty then none
      else if (rest2.drop ds.length).isEmpty then some (sgn * (digitsVal ds : ℤ))
      else none
    else none

/-- Model of Go `strconv.ParseFloat` restricted to finite decimal syntax
(optional sign, digits with an optional fraction, optional exponent),
returning the exact rational value; the special forms `inf`, `nan`, hex
floats and digit-group underscores are not modelled and are treated as
parse failures, and float64 rounding of the result is not modelled (the
values appearing in these developments are exactly representable). -/
def goParseFloat (s : String) : Option ℚ :=
  let (sgn, cs) : ℚ × List Char :=
    match s.data with
    | '+' :: r => (1, r)
    | '-' :: r => (-1, r)
    | r => (1, r)
  let intDs := cs.takeWhile Char.isDigit
  let rest := cs.drop intDs.length
  match rest with
  | '.' :: rest2 =>
    let fracDs := rest2.takeWhile Char.isDigit
    if intDs.isEmpty && fracDs.isEmpty then none
    else
      let rest3 := rest2.drop fracDs.length
      match parseExpSuffix rest3 with
      | none => none
      | some e =>
        let mant : ℚ := (digitsVal intDs : ℚ) + (digitsVal fracDs : ℚ) / (10 : ℚ) ^ fracDs.length
        some (sgn * mant * (10 : ℚ) ^ e)
  | _ =>
    if intDs.isEmpty then none
    else
      match parseExpSuffix rest with
      | none => none
      | some e => some (sgn * (digitsVal intDs : ℚ) * (10 : ℚ) ^ e)

/-- A lower-case hexadecimal digit, as matched by the character class of
the buildkit success regex. -/
def isHexLower (c : Char) : Bool :=
  c.isDigit || ('a' ≤ c && c ≤ 'f')

/-- Model of matching `local_builder.go`'s `buildkitRegex`
(`#[0-9]+ writing image sha256:([0-9a-f]\x7b12\x7d).+$` anchored at both
ends, `.` not matching a newline) against a whole line, returning the
captured 12-character digest.  The regex is deterministic: `[0-9]+` is
maximal because the following literal starts with a space, and the
capture group has fixed width. -/
def buildkitMatch (line : String) : Option String :=
  match line.data with
  | '#' :: rest =>
    let ds := rest.takeWhile Char.isDigit
    if ds.isEmpty then none
    else
      let rest2 := rest.drop ds.length
      let lit := " writing image sha256:".data
      if lit.isPrefixOf rest2 then
        let rest3 := rest2.drop lit.length
        let hex := rest3.take 12
        let tail := rest3.drop 12
        if hex.length = 12 && hex.all isHexLower && !tail.isEmpty && tail.all (· ≠ '\n')
        then some ⟨hex⟩ else none
      else none
  | _ => none

/-- Modelled from the spec: the constant `SectionStartingBuild` is defined
in a file of the `docker` package that is not among the provided sources;
the spec fixes it as the sentinel section name used before any
section-marker line is seen. -/
def SectionStartingBuild : String := "starting build"

/-- The literal prefix of the legacy success line in `buildPipe`. -/
def successMarkerText : String := "Successfully built "

/-- State of the scanning goroutine of `buildPipe`
(`local_builder.go` lines 140-164): the current section name, the log
lines collected since the last section change (`currentLogLines`), and
the sequence of values sent on `tagChan`, in order. -/
structure ScanState where
  currentSection : String
  currentLogLines : List String
  tags : List String
deriving Repr, DecidableEq

/-- Initial scanner state. -/
def scanInit : ScanState :=
  ⟨SectionStartingBuild, [], []⟩

/-- One iteration of the scanning loop of `buildPipe` on a line, with
`sp` standing for the package constant `SectionPrefix` (defined outside
the provided sources, kept abstract): if the line contains
`"RUN " ++ sp` the section becomes the remainder after the first
occurrence (`strings.SplitN(line, sep, 2)[1]`) and the window resets;
otherwise the line is appended to the window.  Independently, a line
with the legacy success marker emits the trimmed remainder on `tagChan`,
and a line matching the buildkit regex emits the captured digest. -/
def scanLine (sp : String) (st : ScanState) (line : String) : ScanState :=
  let st1 :=
    match splitAfterFirst ("RUN " ++ sp).data line.data with
    | some rest => { st with currentSection := ⟨rest⟩, currentLogLines := [] }
    | none => { st with currentLogLines := st.currentLogLines ++ [line] }
  let st2 :=
    if strStartsWith line successMarkerText then
      { st1 with tags := st1.tags ++ [goTrimSpace (line.drop successMarkerText.length)] }
    else st1
  match buildkitMatch line with
  | some digest => { st2 with tags := st2.tags ++ [digest] }
  | none => st2

/-- The scanning goroutine of `buildPipe` over a whole line stream. -/
def scanLines (sp : String) (ls : List String) : ScanState :=
  ls.foldl (scanLine sp) scanInit

/-- A line containing the section-marker substring `"RUN " ++ sp`. -/
def isMarker (sp line : String) : Bool :=
  (splitAfterFirst ("RUN " ++ sp).data line.data).isSome

/-- The tags a single line causes to be sent on `tagChan`, in source
order (legacy check before the buildkit regex). -/
def lineTags (line : String) : List String :=
  (if strStartsWith line successMarkerText then
    [goTrimSpace (line.drop successMarkerText.length)]
  else []) ++
  (match buildkitMatch line with
   | some digest => [digest]
   | none => [])

/-- Outcome of one `build` call (`local_builder.go` lines 47-82), derived
from the rendezvous semantics of the two unbuffered channels of
`buildPipe`: the scanning goroutine performs its `tagChan` sends in
stream order and, after the stream ends, one `lastLogsChan` send; each
send blocks until received.  After `cmd.Wait()` the main flow receives
once: on a failed exit it receives the window from `lastLogsChan` (so it
blocks forever when an earlier unreceived `tagChan` send stalls the
goroutine), logs each drained line and returns the error; on a clean
exit it receives from `tagChan` (so it blocks forever when no tag is
ever sent). -/
inductive BuildOutcome where
  | built (tag : String)
  | buildFailed (drainedWindow : List String)
  | blocked
deriving Repr, DecidableEq

/-- Model of `build` as a function of the scanned line stream and the
exit status reported by `cmd.Wait()` (`exitOk = true` for a clean
exit). -/
def buildModel (sp : String) (ls : List String) (exitOk : Bool) : BuildOutcome :=
  let st := scanLines sp ls
  if exitOk then
    match st.tags with
    | t :: _ => .built t
    | [] => .blocked
  else
    match st.tags with
    | [] => .buildFailed st.currentLogLines
    | _ :: _ => .blocked

/-- Model of the error value produced by running an external command:
`exitError code capturedStderr` models `*exec.ExitError` (with
`capturedStderr` the `Stderr` field, populated only by `cmd.Output()`);
`otherError msg` models any other error, e.g. `*exec.Error` when the
executable cannot be found or started. -/
inductive CmdError where
  | exitError (code : ℕ) (capturedStderr : String)
  | otherError (msg : String)
deriving Repr, DecidableEq

/-- Model of Go `err.Error()` for a command error: `ExitError.Error()`
reports only the exit status (it does not include the `Stderr` field),
and other errors report their own message. -/
def cmdErrorString : CmdError → String
  | .exitError code _ => "exit status " ++ toString code
  | .otherError msg => msg

/-- Outcome of the `tag` method (`local_builder.go` lines 84-95). -/
inductive TagOutcome where
  | ok
  | failure (msg : String)
  | panicked
deriving Repr, DecidableEq

/-- Model of the `tag` method: on a `cmd.Output()` error it performs the
unchecked type assertion `err.(*exec.ExitError)` — an `exitError` yields
a failure message embedding the captured stderr, while any other error
makes the assertion panic. -/
def tagImage (t fullImageTag : String) (outputErr : Option CmdError) : TagOutcome :=
  match outputErr with
  | none => .ok
  | some (.exitError _ stderr) =>
    .failure ("Failed to tag " ++ t ++ " as " ++ fullImageTag ++ ", got error: " ++ stderr)
  | some (.otherError _) => .panicked

/-- Outcome of the `push` method (`local_builder.go` lines 97-116); the
two fatal variants model the `console.Fatal` calls of
`pipeToWithDockerChecks`, which terminate the process. -/
inductive PushOutcome where
  | fatalDockerNotRunning
  | fatalDockerOutdated
  | ok
  | failure (msg : String)
deriving Repr, DecidableEq

/-- Model of `pipeToWithDockerChecks` over the piped stderr lines: each
line is checked for the two daemon-level error substrings (a hit is
fatal and stops processing); otherwise the line is forwarded to the log
writer.  Returns the fatal outcome, if any, and the forwarded lines. -/
def pipeDockerChecks : List String → Option PushOutcome × List String
  | [] => (none, [])
  | l :: rest =>
    if strContainsSub l "Cannot connect to the Docker daemon" then
      (some .fatalDockerNotRunning, [])
    else if strContainsSub l "failed to dial gRPC: unable to upgrade to h2c, received 502" then
      (some .fatalDockerOutdated, [])
    else
      let r := pipeDockerChecks rest
      (r.1, l :: r.2)

/-- Model of the `push` method as a function of the stderr lines piped
from the command and the `cmd.Run()` error: stderr goes through the
docker checks (and to the log writer), and a run error is returned as
the failure value unchanged (`return err`).  The second component is the
list of stderr lines forwarded to the log writer. -/
def pushImage (t : String) (stderrLines : List String) (runErr : Option CmdError) :
    PushOutcome × List String :=
  match pipeDockerChecks stderrLines with
  | (some fatal, logged) => (fatal, logged)
  | (none, logged) =>
    match runErr with
    | some e => (.failure (cmdErrorString e), logged)
    | none => (.ok, logged)

/-- The `ExampleValue` struct of the `serving` package: two optional
fields modelling the `String` and `File` pointers. -/
structure ExampleValue where
  string : Option String
  file : Option String
deriving Repr, DecidableEq

/-- The `Example` struct; the Go `map[string]ExampleValue` is modelled
as an association list in some iteration order. -/
structure Example where
  values : List (String × ExampleValue)
deriving Repr, DecidableEq

/-- Model of `NewExample`: a value with prefix `@` becomes a file
reference with the prefix stripped (`val[1:]`), any other value an
inline string. -/
def NewExample (keyVals : List (String × String)) : Example :=
  ⟨keyVals.map fun kv =>
    if strStartsWith kv.2 "@" then (kv.1, ⟨none, some (kv.2.drop 1)⟩)
    else (kv.1, ⟨some kv.2, none⟩)⟩

/-- Model of `NewExampleWithBaseDir`: as `NewExample`, but a file
reference path is `filepath.Join(baseDir, val[1:])`. -/
def NewExampleWithBaseDir (keyVals : List (String × String)) (baseDir : String) : Example :=
  ⟨keyVals.map fun kv =>
    if strStartsWith kv.2 "@" then (kv.1, ⟨none, some (goJoin baseDir (kv.2.drop 1))⟩)
    else (kv.1, ⟨some kv.2, none⟩)⟩

/-- Environment for the multipart-encoding loop of `RunInference`
(`part_000` lines 166-197): whether opening, reading (the `io.Copy`) and
closing each referenced file succeeds, and the file contents.  Writes
into the `bytes.Buffer`-backed multipart writer cannot fail and are not
given failure switches. -/
structure FsEnv where
  openOk : String → Bool
  readOk : String → Bool
  closeOk : String → Bool
  contents : String → String

/-- A BodyPart of the multipart body: `CreateFormFile(key, filepath.Base(path))`
followed by the copied file contents, or `CreateFormField(key)` followed
by the inline value. -/
inductive BodyPart where
  | filePart (field : String) (filename : String) (content : String)
  | formField (field : String) (value : String)
deriving Repr, DecidableEq

/-- Encoding state: the parts written so far and the files opened but
not yet closed (in open order). -/
structure EncState where
  parts : List BodyPart
  openFiles : List String
deriving Repr, DecidableEq

/-- The error returned early from the encoding loop.  `nilValue` marks
the nil-pointer dereference that Go would panic on when both pointers of
an `ExampleValue` are nil. -/
inductive EncError where
  | openError (path : String)
  | copyError (path : String)
  | closeError (path : String)
  | nilValue (key : String)
deriving Repr, DecidableEq

/-- One iteration of the encoding loop of `RunInference` for a single
field: a file-reference field opens the file, copies its contents into a
file part and closes it — returning early (without closing) when the
copy fails — and an inline field becomes a plain form field. -/
def encodeValue (env : FsEnv) (kv : String × ExampleValue) (st : EncState) :
    Option EncError × EncState :=
  match kv.2.file with
  | some path =>
    if env.openOk path then
      let st1 : EncState := { st with openFiles := st.openFiles ++ [path] }
      if env.readOk path then
        let st2 : EncState :=
          { st1 with parts := st1.parts ++ [.filePart kv.1 (goBase path) (env.contents path)] }
        let st3 : EncState := { st2 with openFiles := st2.openFiles.erase path }
        if env.closeOk path then (none, st3)
        else (some (.closeError path), st3)
      else (some (.copyError path), st1)
    else (some (.openError path), st)
  | none =>
    match kv.2.string with
    | some s => (none, { st with parts := st.parts ++ [.formField kv.1 s] })
    | none => (some (.nilValue kv.1), st)

/-- The encoding loop of `RunInference` over the fields of an Example
(in some map-iteration order), stopping at the first error. -/
def encodeExampleBody (env : FsEnv) : List (String × ExampleValue) → EncState →
    Option EncError × EncState
  | [], st => (none, st)
  | kv :: rest, st =>
    match encodeValue env kv st with
    | (some e, st1) => (some e, st1)
    | (none, st1) => encodeExampleBody env rest st1

/-- The `ResultValue` struct: the fully materialized response body (the
`io.Reader` buffer) and its MIME type. -/
structure ResultValue where
  buffer : List ℕ
  mimeType : String
deriving Repr, DecidableEq

/-- The `Result` struct; the Go `map[string]ResultValue` is modelled as
an association list, and the float64 timing fields as rationals. -/
structure Result where
  values : List (String × ResultValue)
  setupTime : ℚ
  runTime : ℚ
deriving Repr, DecidableEq

/-- The response of the `/infer` call as `RunInference` observes it:
status code, the `Content-Type`, `X-Setup-Time` and `X-Run-Time` headers
(`Header.Get` returns the empty string for an absent header) and the
body bytes. -/
structure HttpResp where
  statusCode : ℕ
  contentType : String
  setupTimeHdr : String
  runTimeHdr : String
  body : List ℕ
deriving Repr, DecidableEq

/-- Model of `strings.Split(contentType, ";")[0]`: the portion of the
header before the first semicolon. -/
def mimeTypeOf (contentType : String) : String :=
  ⟨contentType.data.takeWhile (· ≠ ';')⟩

/-- Model of one timing header decode in `RunInference` (`part_000`
lines 227-242): the field starts at the sentinel `-1`; a non-empty
header is passed to `strconv.ParseFloat`, whose returned value is
assigned to the field in the same multiple assignment even when parsing
fails — a syntax error returns `0`, so the sentinel is overwritten
by `0` and the error is only logged. -/
def decodeTimingHeader (hdr : String) : ℚ :=
  if hdr = "" then -1
  else
    match goParseFloat hdr with
    | some v => v
    | none => 0

/-- Outcome of `RunInference` after the request was issued. -/
inductive InferOutcome where
  | ok (r : Result)
  | httpError (status : ℕ)
  | readError
deriving Repr, DecidableEq

/-- Model of the response-decoding phase of `RunInference` (`part_000`
lines 214-255): a non-200 status is a failure (with container-log
capture); a failed body read (`io.Copy`) is a failure; otherwise the
Result holds the single `"output"` entry with the materialized body and
the MIME type, plus the decoded timing headers. -/
def decodeInferResponse (resp : HttpResp) (bodyReadOk : Bool) : InferOutcome :=
  if resp.statusCode ≠ 200 then .httpError resp.statusCode
  else if !bodyReadOk then .readError
  else
    .ok ⟨[("output", ⟨resp.body, mimeTypeOf resp.contentType⟩)],
      decodeTimingHeader resp.setupTimeHdr,
      decodeTimingHeader resp.runTimeHdr⟩

/-- Result of `ContainerInspect` as `waitForContainerReady` uses it:
an inspect error, or the container state (`none` models a nil `State`
pointer, `some s` the status string of the state). -/
inductive InspectResult where
  | err
  | ok (state : Option String)
deriving Repr, DecidableEq

/-- What one iteration of the readiness poll loop observes: the elapsed
time at the top of the iteration (`now.Sub(start)` against the startup
timeout, in abstract time units), the inspect result, and the ping
result (`none` models a transport error of `http.Get`, `some c` a
response with status `c`). -/
structure PollObs where
  elapsed : ℕ
  inspect : InspectResult
  ping : Option ℕ
deriving Repr, DecidableEq

/-- Outcome of `waitForContainerReady` (`part_000` lines 125-156). -/
inductive PollResult where
  | timedOut
  | inspectError
  | exitedUnexpectedly
  | ready
deriving Repr, DecidableEq

/-- Model of the polling loop of `waitForContainerReady` over a trace of
per-iteration observations, mirroring the source order: first the
deadline check (`now.Sub(start) > StartupTimeout`), then container
inspection — an "exited" or "dead" status (with a non-nil state) fails
with "Container exited unexpectedly" — then the ping, where a transport
error or a non-200 status continues the loop.  `none` is returned when
the finite trace is exhausted without a verdict (the real loop would
keep polling). -/
def waitForContainerReady (startupTimeout : ℕ) : List PollObs → Option PollResult
  | [] => none
  | o :: rest =>
    if startupTimeout < o.elapsed then some .timedOut
    else
      match o.inspect with
      | .err => some .inspectError
      | .ok st =>
        if st = some "exited" || st = some "dead" then some .exitedUnexpectedly
        else
          match o.ping with
          | some 200 => some .ready
          | _ => waitForContainerReady startupTimeout rest

/-- Spec-side description of the per-field encoding used to state the
amended C6: a file-reference field becomes a file part holding the
referenced file's full contents under its base name, an inline field a
plain form field. -/
def expectedBodyPart (env : FsEnv) (kv : String × ExampleValue) : BodyPart :=
  match kv.2.file with
  | some p => .filePart kv.1 (goBase p) (env.contents p)
  | none => .formField kv.1 (kv.2.string.getD "")

/-- Decidable form of "this poll iteration neither returns nor fails":
the deadline has not elapsed, the container state is inspectable and not
exited or dead, and the ping is not a 200 response. -/
def pollContinues (t : ℕ) (p : PollObs) : Bool :=
  decide (p.elapsed ≤ t) && decide (p.inspect ≠ .err) &&
  decide (p.inspect ≠ .ok (some "exited")) && decide (p.inspect ≠ .ok (some "dead")) &&
  decide (p.ping ≠ some 200)

theorem isPrefixOf_self_char (l : List Char) : l.isPrefixOf l = true := by
  induction l with
  | nil => rfl
  | cons c cs ih => simp [List.isPrefixOf, ih]

theorem listContainsSub_append_self (a b : List Char) : listContainsSub b (a ++ b) = true := by
  induction a with
  | nil =>
    cases b with
    | nil => rfl
    | cons c cs => simp [listContainsSub, isPrefixOf_self_char]
  | cons x xs ih => simp [listContainsSub, ih]

theorem strContainsSub_append_self (s t : String) : strContainsSub (s ++ t) t = true := by
  show listContainsSub t.data (s ++ t).data = true
  rw [String.data_append]
  exact listContainsSub_append_self s.data t.data

theorem scanLine_tags (sp : String) (st : ScanState) (l : String) :
    (scanLine sp st l).tags = st.tags ++ lineTags l := by
  unfold scanLine lineTags
  cases splitAfterFirst ("RUN " ++ sp).data l.data <;>
    cases buildkitMatch l <;>
      by_cases h : strStartsWith l successMarkerText <;>
        simp [h]

theorem scanFold_tags (sp : String) (ls : List String) (st : ScanState) :
    (ls.foldl (scanLine sp) st).tags = st.tags ++ ls.flatMap lineTags := by
  induction ls generalizing st with
  | nil => simp
  | cons l rest ih => simp [List.foldl_cons, ih, scanLine_tags]

theorem scanLine_window_marker (sp : String) (st : ScanState) (l : String)
    (h : isMarker sp l = true) : (scanLine sp st l).currentLogLines = [] := by
  unfold isMarker at h
  unfold scanLine
  cases hs : splitAfterFirst ("RUN " ++ sp).data l.data with
  | none => rw [hs] at h; simp at h
  | some rest =>
    cases buildkitMatch l <;>
      by_cases hp : strStartsWith l successMarkerText <;>
        simp [hp]

theorem scanLine_window_nonmarker (sp : String) (st : ScanState) (l : String)
    (h : isMarker sp l = false) :
    (scanLine sp st l).currentLogLines = st.currentLogLines ++ [l] := by
  unfold isMarker at h
  unfold scanLine
  cases hs : splitAfterFirst ("RUN " ++ sp).data l.data with
  | some rest => rw [hs] at h; simp at h
  | none =>
    cases buildkitMatch l <;>
      by_cases hp : strStartsWith l successMarkerText <;>
        simp [hp]

theorem scanFold_window_no_marker (sp : String) (ls : List String) (st : ScanState)
    (h : ∀ l ∈ ls, isMarker sp l = false) :
    (ls.foldl (scanLine sp) st).currentLogLines = st.currentLogLines ++ ls := by
  induction ls generalizing st with
  | nil => simp
  | cons l rest ih =>
    rw [List.foldl_cons, ih _ (fun x hx => h x (List.mem_cons_of_mem l hx)),
      scanLine_window_nonmarker sp st l (h l (List.mem_cons_self l rest))]
    simp

/-- C2: for a build log stream whose last section-marker line is `m`
(`N`-th of `N` markers), the Trailing Log Window at end of stream is
exactly the lines after `m`, in arrival order, excluding `m` itself
(those lines are all non-markers since `m` is the last marker); and the
window is reset to empty at every section transition, whatever came
before it. -/
theorem trailing_window_after_last_marker (sp : String) (pre post : List String) (m : String)
    (hm : isMarker sp m = true) (hpost : ∀ l ∈ post, isMarker sp l = false) :
    (scanLines sp (pre ++ m :: post)).currentLogLines = post ∧
    ∀ xs : List String, (scanLines sp (xs ++ [m])).currentLogLines = [] := by
  constructor
  · unfold scanLines
    rw [List.foldl_append, List.foldl_cons,
      scanFold_window_no_marker sp post _ hpost,
      scanLine_window_marker sp _ m hm]
    simp
  · intro xs
    unfold scanLines
    rw [List.foldl_append, List.foldl_cons, List.foldl_nil,
      scanLine_window_marker sp _ m hm]

theorem trailing_window_witness :
    (scanLines "sec: " (["prelude", "RUN sec: build"] ++ "RUN sec: install" :: ["log1", "log2"])).currentLogLines
      = ["log1", "log2"] :=
  (trailing_window_after_last_marker "sec: " ["prelude", "RUN sec: build"] ["log1", "log2"]
    "RUN sec: install" (by decide) (by decide)).1

/-- C7: every line of the stream that begins with the literal
`"Successfully built "` causes the trimmed remainder after that prefix
to be emitted on the tag channel, for any section-marker convention and
any surrounding lines. -/
theorem legacy_success_line_emits_trimmed_tag (sp : String) (ls : List String) (line : String)
    (hmem : line ∈ ls) (hpre : strStartsWith line successMarkerText = true) :
    goTrimSpace (line.drop successMarkerText.length) ∈ (scanLines sp ls).tags := by
  unfold scanLines
  rw [scanFold_tags]
  apply List.mem_append_right
  exact List.mem_flatMap.mpr ⟨line, hmem, by simp [lineTags, hpre]⟩

theorem legacy_success_witness :
    goTrimSpace (("Successfully built abc123 ").drop successMarkerText.length) ∈
      (scanLines "sec: " ["RUN sec: install", "Successfully built abc123 "]).tags :=
  legacy_success_line_emits_trimmed_tag "sec: " ["RUN sec: install", "Successfully built abc123 "]
    "Successfully built abc123 " (by decide) (by decide)

/-- C3: when the build output stream ends without any success marker, the
tag channel never fires; under the spec's environmental assumption that a
cleanly exiting build process has necessarily printed a success marker
(so a tagless stream comes from a failed exit), the build flow does not
block: it takes the failure path, drains the Trailing Log Window from
the scanning goroutine and reports it. -/
theorem build_without_tag_does_not_block (sp : String) (ls : List String) (exitOk : Bool)
    (hnotag : (scanLines sp ls).tags = [])
    (hexit : exitOk = true → (scanLines sp ls).tags ≠ []) :
    buildModel sp ls exitOk = .buildFailed (scanLines sp ls).currentLogLines ∧
    buildModel sp ls exitOk ≠ .blocked := by
  have hex : exitOk = false := by
    cases exitOk with
    | false => rfl
    | true => exact absurd hnotag (hexit rfl)
  subst hex
  refine ⟨?_, ?_⟩ <;> simp [buildModel, hnotag]

theorem build_without_tag_witness :
    buildModel "sec: " ["log line"] false =
      .buildFailed (scanLines "sec: " ["log line"]).currentLogLines ∧
    buildModel "sec: " ["log line"] false ≠ .blocked :=
  build_without_tag_does_not_block "sec: " ["log line"] false (by decide)
    (fun h => absurd h (by decide))

theorem pollStep_exited (t : ℕ) (o : PollObs) (rest : List PollObs)
    (hel : o.elapsed ≤ t)
    (hexited : o.inspect = .ok (some "exited") ∨ o.inspect = .ok (some "dead")) :
    waitForContainerReady t (o :: rest) = some .exitedUnexpectedly := by
  unfold waitForContainerReady
  rw [if_neg (by omega)]
  rcases hexited with h | h <;> rw [h] <;> simp

theorem pollStep_continue (t : ℕ) (p : PollObs) (rest : List PollObs)
    (hc : pollContinues t p = true) :
    waitForContainerReady t (p :: rest) = waitForContainerReady t rest := by
  simp only [pollContinues, Bool.and_eq_true, decide_eq_true_eq] at hc
  obtain ⟨⟨⟨⟨h1, h2⟩, h3⟩, h4⟩, h5⟩ := hc
  conv_lhs => rw [waitForContainerReady]
  rw [if_neg (by omega)]
  cases hi : p.inspect with
  | err => exact absurd hi h2
  | ok st =>
    have hb : (st = some "exited" || st = some "dead") = false := by
      simp only [Bool.or_eq_false_iff, decide_eq_false_iff_not]
      exact ⟨fun h => h3 (by rw [h] at hi; exact hi), fun h => h4 (by rw [h] at hi; exact hi)⟩
    simp only [hb, Bool.false_eq_true, if_false]

/-- C4 counterexample: a container that exited before the liveness
endpoint ever succeeded (the only observation has an exited status and a
failed ping), but whose exit is first observed at a poll iteration where
the startup deadline has already elapsed, makes the poll fail with
"Timed out" — not with "container exited unexpectedly" — because the
deadline check precedes the status check. -/
theorem poll_exited_after_deadline_reports_timeout :
    waitForContainerReady 10 [⟨11, .ok (some "exited"), none⟩] = some .timedOut ∧
    waitForContainerReady 10 [⟨11, .ok (some "exited"), none⟩] ≠ some .exitedUnexpectedly := by
  constructor
  · rfl
  · decide

/-- C4 (amended): if every earlier poll iteration was within the startup
deadline and merely "not yet ready" (inspectable, not exited or dead,
ping unsuccessful), and the container is observed as "exited" or "dead"
at an iteration that still starts within the deadline, then the poll
fails immediately — whatever observations would follow — with the
"container exited unexpectedly" reason and not a timeout. -/
theorem poll_exited_within_deadline_fails_immediately (t : ℕ) (pre : List PollObs)
    (o : PollObs) (rest : List PollObs)
    (hpre : ∀ p ∈ pre, pollContinues t p = true)
    (hel : o.elapsed ≤ t)
    (hexited : o.inspect = .ok (some "exited") ∨ o.inspect = .ok (some "dead")) :
    waitForContainerReady t (pre ++ o :: rest) = some .exitedUnexpectedly := by
  induction pre with
  | nil => exact pollStep_exited t o rest hel hexited
  | cons p ps ih =>
    rw [List.cons_append, pollStep_continue t p (ps ++ o :: rest) (hpre p (List.mem_cons_self p ps))]
    exact ih (fun q hq => hpre q (List.mem_cons_of_mem p hq))

theorem poll_exited_witness :
    waitForContainerReady 10
      ([⟨3, .ok (some "running"), none⟩, ⟨5, .ok (some "running"), some 500⟩] ++
        ⟨7, .ok (some "exited"), none⟩ :: [⟨9, .ok (some "running"), some 200⟩]) =
      some .exitedUnexpectedly :=
  poll_exited_within_deadline_fails_immediately 10
    [⟨3, .ok (some "running"), none⟩, ⟨5, .ok (some "running"), some 500⟩]
    ⟨7, .ok (some "exited"), none⟩ [⟨9, .ok (some "running"), some 200⟩]
    (by decide) (by decide) (Or.inl rfl)

/-- C5 counterexample: a push whose underlying tool failed with exit
status 1 after writing "boom" to standard error returns the failure
value built from the bare process error ("exit status 1"), which does
not contain the captured standard-error text; the stderr lines go to the
log sink instead. -/
theorem push_failure_value_omits_stderr :
    pushImage "img" ["boom"] (some (.exitError 1 "")) = (.failure "exit status 1", ["boom"]) ∧
    strContainsSub "exit status 1" "boom" = false := by
  constructor
  · rfl
  · rfl

theorem pipeDockerChecks_clean (lines : List String)
    (h : ∀ l ∈ lines,
      strContainsSub l "Cannot connect to the Docker daemon" = false ∧
      strContainsSub l "failed to dial gRPC: unable to upgrade to h2c, received 502" = false) :
    pipeDockerChecks lines = (none, lines) := by
  induction lines with
  | nil => rfl
  | cons l rest ih =>
    obtain ⟨h1, h2⟩ := h l (List.mem_cons_self l rest)
    unfold pipeDockerChecks
    rw [if_neg (by rw [h1]; simp), if_neg (by rw [h2]; simp),
      ih (fun x hx => h x (List.mem_cons_of_mem l hx))]

/-- C5 (amended): a failing tag operation (a process exit failure of
`cmd.Output()`) returns a failure value that contains the captured
standard-error text; a failing push operation returns the bare process
error as its failure value, while the stderr lines (none of which match
the daemon-fatal substrings) are forwarded line by line to the log sink
rather than included in the failure value. -/
theorem tag_failure_includes_stderr_push_does_not (t ft stderr : String) (code : ℕ)
    (lines : List String) (e : CmdError)
    (hclean : ∀ l ∈ lines,
      strContainsSub l "Cannot connect to the Docker daemon" = false ∧
      strContainsSub l "failed to dial gRPC: unable to upgrade to h2c, received 502" = false) :
    (∃ msg, tagImage t ft (some (.exitError code stderr)) = .failure msg ∧
      strContainsSub msg stderr = true) ∧
    pushImage t lines (some e) = (.failure (cmdErrorString e), lines) := by
  constructor
  · refine ⟨"Failed to tag " ++ t ++ " as " ++ ft ++ ", got error: " ++ stderr, rfl, ?_⟩
    exact strContainsSub_append_self ("Failed to tag " ++ t ++ " as " ++ ft ++ ", got error: ") stderr
  · unfold pushImage
    rw [pipeDockerChecks_clean lines hclean]

theorem tag_push_stderr_witness :
    (∃ msg, tagImage "abc" "reg/img:abc" (some (.exitError 1 "boom")) = .failure msg ∧
      strContainsSub msg "boom" = true) ∧
    pushImage "abc" ["denied"] (some (.exitError 1 "")) =
      (.failure (cmdErrorString (.exitError 1 "")), ["denied"]) :=
  tag_failure_includes_stderr_push_does_not "abc" "reg/img:abc" "boom" 1 ["denied"]
    (.exitError 1 "") (by decide)

/-- C9: when the external tag command invocation fails with anything
other than a process exit error (for example the executable cannot be
found or started), the unchecked type assertion to an exit-status error
in the `tag` method panics instead of returning a failure value. -/
theorem tag_non_exit_error_panics (t ft msg : String) :
    tagImage t ft (some (.otherError msg)) = .panicked :=
  rfl

/-- C6 counterexample: with an environment where the referenced file
opens but the copy into the part fails, the encoding loop returns the
copy error with the file still open — the file is not closed on this
partial-failure path (there is no deferred close in the loop). -/
theorem copy_failure_leaves_file_open :
    encodeExampleBody ⟨fun _ => true, fun _ => false, fun _ => true, fun _ => ""⟩
      [("input", ⟨none, some "/tmp/x"⟩)] ⟨[], []⟩ =
      (some (.copyError "/tmp/x"), ⟨[], ["/tmp/x"]⟩) ∧
    (⟨[], ["/tmp/x"]⟩ : EncState).openFiles ≠ [] := by
  constructor
  · rfl
  · decide

theorem encodeBody_all_ok (env : FsEnv) (fields : List (String × ExampleValue))
    (parts0 : List BodyPart)
    (hok : ∀ kv ∈ fields,
      kv.2.file.all (fun p => env.openOk p && env.readOk p && env.closeOk p) = true)
    (hwf : ∀ kv ∈ fields, kv.2.file = none → kv.2.string ≠ none) :
    encodeExampleBody env fields ⟨parts0, []⟩ =
      (none, ⟨parts0 ++ fields.map (expectedBodyPart env), []⟩) := by
  induction fields generalizing parts0 with
  | nil => simp [encodeExampleBody]
  | cons kv rest ih =>
    have hkv := hok kv (List.mem_cons_self kv rest)
    have hrest := fun x hx => hok x (List.mem_cons_of_mem kv hx)
    have hwfrest := fun x hx => hwf x (List.mem_cons_of_mem kv hx)
    cases hf : kv.2.file with
    | some p =>
      rw [hf] at hkv
      simp only [Option.all_some, Bool.and_eq_true] at hkv
      obtain ⟨⟨ho, hr⟩, hc⟩ := hkv
      simp only [encodeExampleBody, encodeValue, hf, ho, hr, hc, if_true,
        List.nil_append, List.erase_cons_head, expectedBodyPart]
      rw [ih (parts0 ++ [BodyPart.filePart kv.1 (goBase p) (env.contents p)]) hrest hwfrest]
      simp [expectedBodyPart, hf]
    | none =>
      cases hs : kv.2.string with
      | none => exact absurd hs (hwf kv (List.mem_cons_self kv rest) hf)
      | some s =>
        simp only [encodeExampleBody, encodeValue, hf, hs]
        rw [ih (parts0 ++ [BodyPart.formField kv.1 s]) hrest hwfrest]
        simp [expectedBodyPart, hf, hs]

/-- C6 (amended): for every field-iteration order and environment in
which every referenced file can be opened, read and closed, the encoding
succeeds, each file-reference field yields a file part holding the
file's full contents under its base name, each inline field yields a
plain form field, and every opened file has been closed; but when the
copy of a referenced file into its part fails partway, the loop returns
the copy error with that file left open — it is not closed on this
partial-failure path. -/
theorem multipart_encoding_file_handling :
    (∀ (env : FsEnv) (fields : List (String × ExampleValue)),
      (∀ kv ∈ fields,
        kv.2.file.all (fun p => env.openOk p && env.readOk p && env.closeOk p) = true) →
      (∀ kv ∈ fields, kv.2.file = none → kv.2.string ≠ none) →
      encodeExampleBody env fields ⟨[], []⟩ =
        (none, ⟨fields.map (expectedBodyPart env), []⟩)) ∧
    (∀ (env : FsEnv) (key : String) (v : ExampleValue) (path : String) (st : EncState),
      v.file = some path → env.openOk path = true → env.readOk path = false →
      encodeValue env (key, v) st =
        (some (.copyError path), ⟨st.parts, st.openFiles ++ [path]⟩)) := by
  constructor
  · intro env fields hok hwf
    simpa using encodeBody_all_ok env fields [] hok hwf
  · intro env key v path st hf ho hr
    simp only [encodeValue, hf, ho, hr, if_true]
    rfl

theorem multipart_encoding_witness :
    encodeExampleBody ⟨fun _ => true, fun _ => true, fun _ => true, fun _ => "bytes"⟩
      [("in", ⟨none, some "/tmp/x"⟩), ("txt", ⟨some "v", none⟩)] ⟨[], []⟩ =
      (none, ⟨[("in", (⟨none, some "/tmp/x"⟩ : ExampleValue)), ("txt", ⟨some "v", none⟩)].map
        (expectedBodyPart ⟨fun _ => true, fun _ => true, fun _ => true, fun _ => "bytes"⟩), []⟩) :=
  (multipart_encoding_file_handling).1
    ⟨fun _ => true, fun _ => true, fun _ => true, fun _ => "bytes"⟩
    [("in", ⟨none, some "/tmp/x"⟩), ("txt", ⟨some "v", none⟩)] (by decide) (by decide)

/-- C8: every field constructed by `NewExample` or
`NewExampleWithBaseDir` is exactly one of inline string and file
reference (never both, never neither); a value with the `@` prefix is
classified as a file reference whose path is the value with the prefix
stripped (joined to the base directory in the base-directory variant),
and any other value as an inline field. -/
theorem example_values_exclusive_and_classified (keyVals : List (String × String))
    (baseDir k v : String) (hmem : (k, v) ∈ keyVals) :
    (∀ e ∈ (NewExample keyVals).values,
      ((e.2.string.isSome && e.2.file.isNone) || (e.2.string.isNone && e.2.file.isSome)) = true) ∧
    (∀ e ∈ (NewExampleWithBaseDir keyVals baseDir).values,
      ((e.2.string.isSome && e.2.file.isNone) || (e.2.string.isNone && e.2.file.isSome)) = true) ∧
    (strStartsWith v "@" = true →
      (k, ExampleValue.mk none (some (v.drop 1))) ∈ (NewExample keyVals).values ∧
      (k, ExampleValue.mk none (some (goJoin baseDir (v.drop 1)))) ∈
        (NewExampleWithBaseDir keyVals baseDir).values) ∧
    (strStartsWith v "@" = false →
      (k, ExampleValue.mk (some v) none) ∈ (NewExample keyVals).values ∧
      (k, ExampleValue.mk (some v) none) ∈ (NewExampleWithBaseDir keyVals baseDir).values) := by
  refine ⟨?_, ?_, ?_, ?_⟩
  · intro e he
    simp only [NewExample, List.mem_map] at he
    obtain ⟨kv, hkv, rfl⟩ := he
    by_cases h : strStartsWith kv.2 "@" <;> simp [h]
  · intro e he
    simp only [NewExampleWithBaseDir, List.mem_map] at he
    obtain ⟨kv, hkv, rfl⟩ := he
    by_cases h : strStartsWith kv.2 "@" <;> simp [h]
  · intro h
    constructor
    · have hmap := List.mem_map_of_mem (fun kv : String × String =>
        if strStartsWith kv.2 "@" then (kv.1, ExampleValue.mk none (some (kv.2.drop 1)))
        else (kv.1, ExampleValue.mk (some kv.2) none)) hmem
      simpa [NewExample, h] using hmap
    · have hmap := List.mem_map_of_mem (fun kv : String × String =>
        if strStartsWith kv.2 "@" then (kv.1, ExampleValue.mk none (some (goJoin baseDir (kv.2.drop 1))))
        else (kv.1, ExampleValue.mk (some kv.2) none)) hmem
      simpa [NewExampleWithBaseDir, h] using hmap
  · intro h
    constructor
    · have hmap := List.mem_map_of_mem (fun kv : String × String =>
        if strStartsWith kv.2 "@" then (kv.1, ExampleValue.mk none (some (kv.2.drop 1)))
        else (kv.1, ExampleValue.mk (some kv.2) none)) hmem
      simpa [NewExample, h] using hmap
    · have hmap := List.mem_map_of_mem (fun kv : String × String =>
        if strStartsWith kv.2 "@" then (kv.1, ExampleValue.mk none (some (goJoin baseDir (kv.2.drop 1))))
        else (kv.1, ExampleValue.mk (some kv.2) none)) hmem
      simpa [NewExampleWithBaseDir, h] using hmap

theorem example_construction_witness :
    ("k", ExampleValue.mk none (some ("@/tmp/x".drop 1))) ∈
      (NewExample [("k", "@/tmp/x")]).values ∧
    ("k", ExampleValue.mk none (some (goJoin "base" ("@/tmp/x".drop 1)))) ∈
      (NewExampleWithBaseDir [("k", "@/tmp/x")] "base").values :=
  (example_values_exclusive_and_classified [("k", "@/tmp/x")] "base" "k" "@/tmp/x"
    (by decide)).2.2.1 (by decide)

/-- C1: evaluating the response decode of `RunInference` at a response
with `X-Setup-Time: 1.5` and `X-Run-Time: not-a-number` shows the call
succeeding with `SetupTime = 1.5`, but `RunTime = 0`, not the sentinel
`-1` the spec promises: the multiple assignment
`runTime, err = strconv.ParseFloat(...)` overwrites the sentinel with
the zero value `ParseFloat` returns on a syntax error. -/
theorem inference_malformed_runtime_header_yields_zero :
    decodeInferResponse ⟨200, "application/json", "1.5", "not-a-number", []⟩ true =
      .ok ⟨[("output", ⟨[], "application/json"⟩)], 3 / 2, 0⟩ ∧
    (0 : ℚ) ≠ -1 := by
  constructor
  · have h1 : decodeTimingHeader "1.5" = 3 / 2 := by
      have h : decodeTimingHeader "1.5" =
          1 * (((1 : ℕ) : ℚ) + ((5 : ℕ) : ℚ) / (10 : ℚ) ^ 1) * (10 : ℚ) ^ (0 : ℤ) := rfl
      rw [h]
      norm_num
    have h2 : decodeTimingHeader "not-a-number" = 0 := rfl
    calc decodeInferResponse ⟨200, "application/json", "1.5", "not-a-number", []⟩ true
        = .ok ⟨[("output", ⟨[], "application/json"⟩)],
            decodeTimingHeader "1.5", decodeTimingHeader "not-a-number"⟩ := rfl
      _ = _ := by rw [h1, h2]
  · norm_num

/-- C10: every successful return of the `RunInference` response decode
carries an output mapping with exactly one entry, named `"output"`,
holding the fully materialized response body and the MIME type declared
by the `Content-Type` header (its portion before any parameter
suffix). -/
theorem inference_result_single_output (resp : HttpResp) (bodyReadOk : Bool) (r : Result)
    (h : decodeInferResponse resp bodyReadOk = .ok r) :
    r.values = [("output", ⟨resp.body, mimeTypeOf resp.contentType⟩)] := by
  unfold decodeInferResponse at h
  split_ifs at h
  rw [← InferOutcome.ok.inj h]

theorem inference_result_single_output_witness :
    (Result.mk [("output", ⟨[7, 8], "text/plain"⟩)] (-1) (-1)).values =
      [("output", ⟨(HttpResp.mk 200 "text/plain; charset=utf-8" "" "" [7, 8]).body,
        mimeTypeOf (HttpResp.mk 200 "text/plain; charset=utf-8" "" "" [7, 8]).contentType⟩)] :=
  inference_result_single_output ⟨200, "text/plain; charset=utf-8", "", "", [7, 8]⟩ true
    ⟨[("output", ⟨[7, 8], "text/plain"⟩)], -1, -1⟩ rfl
